import Mathlib

/-!
Verification of the resilient email dispatch service: shallow embedding of
`CircuitBreaker`, `RateLimiter`, `Queue` and `EmailService` (from
`src/utils/CircuitBreaker.ts`, `src/utils/RateLimiter.ts`, `src/utils/Queue.ts`,
`src/core/EmailService.ts`) together with theorems about the claims of the
specification.  Timestamps are modelled as `Int` (JS millisecond numbers),
fractional delay arithmetic as `ℚ`, and fallible calls as explicit result
values.  JavaScript truthiness tests on numeric fields (`if (x && …)`) are
embedded faithfully: the value `0` is falsy.
-/

/-- Circuit states, mirroring the `CIRCUIT_STATE` constants of the source. -/

inductive CircuitState
  | CLOSED
  | OPEN
  | HALF_OPEN
deriving DecidableEq, Repr

/-- Configuration of one `CircuitBreaker` (`failureThreshold`, `resetTimeout`). -/

structure CircuitBreakerConfig where
  failureThreshold : Nat
  resetTimeout : Int
deriving DecidableEq, Repr

/-- Mutable fields of the `CircuitBreaker` class: `state`, `failureCount`,
`lastFailureTime` (a nullable number in the source, hence `Option Int`). -/

structure CircuitBreaker where
  state : CircuitState
  failureCount : Nat
  lastFailureTime : Option Int
deriving DecidableEq, Repr

/-- Initial breaker state: `CLOSED`, `failureCount = 0`, `lastFailureTime = null`. -/

def CircuitBreaker.init : CircuitBreaker :=
  { state := .CLOSED, failureCount := 0, lastFailureTime := none }

/-- What one `execute` call returned: the wrapped operation's success, the wrapped
operation's failure (re-thrown), or the `CIRCUIT` error thrown without running it. -/

inductive ExecResult
  | success
  | opFailure
  | circuitOpen
deriving DecidableEq, Repr

/-- Result of one `execute` call: what it returned, the breaker afterwards, and
whether the wrapped operation was actually invoked. -/

structure ExecOutcome where
  result : ExecResult
  breaker : CircuitBreaker
  invoked : Bool
deriving DecidableEq, Repr

/-- The entry check of `CircuitBreaker.execute`: when the state is `OPEN`, the
guard `if (this.lastFailureTime && now - this.lastFailureTime >= this.resetTimeout)`
moves to `HALF_OPEN`, otherwise `execute` throws (`none` here).  JS truthiness of
`this.lastFailureTime` makes both `null` and the timestamp `0` fail the guard. -/

def CircuitBreaker.checkOpen (b : CircuitBreaker) (cfg : CircuitBreakerConfig)
    (now : Int) : Option CircuitBreaker :=
  if b.state = .OPEN then
    match b.lastFailureTime with
    | some t =>
        if t ≠ 0 ∧ cfg.resetTimeout ≤ now - t then
          some { b with state := .HALF_OPEN }
        else
          none
    | none => none
  else
    some b

/-- The success branch of `execute`: only a `HALF_OPEN` breaker is changed
(to `CLOSED` with zeroed counters). -/

def CircuitBreaker.onSuccess (b : CircuitBreaker) : CircuitBreaker :=
  if b.state = .HALF_OPEN then
    { state := .CLOSED, failureCount := 0, lastFailureTime := none }
  else
    b

/-- The catch branch of `execute`: increment `failureCount`, stamp
`lastFailureTime` with the current time, and move to `OPEN` once
`failureCount >= failureThreshold`. -/

def CircuitBreaker.onFailure (b : CircuitBreaker) (cfg : CircuitBreakerConfig)
    (tEnd : Int) : CircuitBreaker :=
  { state := if cfg.failureThreshold ≤ b.failureCount + 1 then .OPEN else b.state,
    failureCount := b.failureCount + 1,
    lastFailureTime := some tEnd }

/-- `CircuitBreaker.execute` for one call.  `now` is the clock value read at
entry, `tEnd` the clock value read when a failure is recorded (the operation is
asynchronous, so the two reads may differ), and `opOk` whether the wrapped
operation succeeds when it is invoked. -/

def CircuitBreaker.execute (b : CircuitBreaker) (cfg : CircuitBreakerConfig)
    (now tEnd : Int) (opOk : Bool) : ExecOutcome :=
  match b.checkOpen cfg now with
  | none => { result := .circuitOpen, breaker := b, invoked := false }
  | some b1 =>
      if opOk then
        { result := .success, breaker := b1.onSuccess, invoked := true }
      else
        { result := .opFailure, breaker := b1.onFailure cfg tEnd, invoked := true }

/-- `CircuitBreaker.reset`: forces the closed, zeroed state. -/

def CircuitBreaker.reset (_b : CircuitBreaker) : CircuitBreaker :=
  CircuitBreaker.init

/-- One externally observable call on a breaker: an `execute` (with the two clock
reads and the operation outcome) or an administrative `reset`. -/

inductive CBEvent
  | exec (now tEnd : Int) (opOk : Bool)
  | reset
deriving DecidableEq, Repr

/-- State transition of one event. -/

def CircuitBreaker.step (b : CircuitBreaker) (cfg : CircuitBreakerConfig) :
    CBEvent → CircuitBreaker
  | .exec now tEnd opOk => (b.execute cfg now tEnd opOk).breaker
  | .reset => b.reset

/-- The breaker obtained by running a sequence of events from the initial state. -/

def CircuitBreaker.run (cfg : CircuitBreakerConfig) (evs : List CBEvent) :
    CircuitBreaker :=
  evs.foldl (fun b e => b.step cfg e) CircuitBreaker.init

/-- A breaker state is reachable when some event sequence produces it. -/

def CircuitBreaker.Reachable (cfg : CircuitBreakerConfig) (b : CircuitBreaker) : Prop :=
  ∃ evs : List CBEvent, CircuitBreaker.run cfg evs = b

/-- Data invariant: away from `CLOSED` the failure counter has reached the
threshold and a failure time is recorded. -/

def CircuitBreaker.Inv (cfg : CircuitBreakerConfig) (b : CircuitBreaker) : Prop :=
  b.state ≠ .CLOSED → cfg.failureThreshold ≤ b.failureCount ∧ b.lastFailureTime.isSome = true

/-- Run a sequence of calls whose wrapped operation always fails; each list entry
gives the two clock reads of one call. -/

def CircuitBreaker.runFailures (cfg : CircuitBreakerConfig) (b : CircuitBreaker)
    (ts : List (Int × Int)) : CircuitBreaker :=
  ts.foldl (fun b p => (b.execute cfg p.1 p.2 false).breaker) b

/-- Configuration of the `RateLimiter` (`maxRequests`, `timeWindow`). -/

structure RateLimiterConfig where
  maxRequests : Nat
  timeWindow : Int
deriving DecidableEq, Repr

/-- Mutable state of the `RateLimiter` class: the `requestTimestamps` array. -/

structure RateLimiter where
  requestTimestamps : List Int
deriving DecidableEq, Repr

/-- A fresh limiter: no recorded timestamps. -/

def RateLimiter.init : RateLimiter := ⟨[]⟩

/-- `cleanupOldRequests`: keep only timestamps strictly greater than
`now - timeWindow`. -/

def RateLimiter.cleanupOldRequests (rl : RateLimiter) (cfg : RateLimiterConfig)
    (now : Int) : RateLimiter :=
  ⟨rl.requestTimestamps.filter (fun ts => now - cfg.timeWindow < ts)⟩

/-- What `acquire` did: succeeded, or threw the `RATE_LIMIT` error. -/

inductive AcquireResult
  | ok
  | rateLimit
deriving DecidableEq, Repr

/-- `RateLimiter.acquire`.  After the purge, when the recorded count has reached
`maxRequests` the wait time `oldest + timeWindow - now` is computed from
`requestTimestamps[0]`; it throws only when that wait time is positive.  With
`maxRequests = 0` the array can be empty at this point: in JS
`this.requestTimestamps[0]` is then `undefined`, the wait time is `NaN`, and
`NaN > 0` is false, so the call falls through and records the timestamp. -/

def RateLimiter.acquire (rl : RateLimiter) (cfg : RateLimiterConfig)
    (now : Int) : AcquireResult × RateLimiter :=
  if cfg.maxRequests ≤ (rl.cleanupOldRequests cfg now).requestTimestamps.length then
    match (rl.cleanupOldRequests cfg now).requestTimestamps with
    | [] => (.ok, ⟨(rl.cleanupOldRequests cfg now).requestTimestamps ++ [now]⟩)
    | oldest :: _ =>
        if 0 < oldest + cfg.timeWindow - now then
          (.rateLimit, rl.cleanupOldRequests cfg now)
        else
          (.ok, ⟨(rl.cleanupOldRequests cfg now).requestTimestamps ++ [now]⟩)
  else
    (.ok, ⟨(rl.cleanupOldRequests cfg now).requestTimestamps ++ [now]⟩)

/-- `getCurrentRequestCount`: returns the raw length of the stored timestamp
array — the source performs no purge here. -/

def RateLimiter.getCurrentRequestCount (rl : RateLimiter) : Nat :=
  rl.requestTimestamps.length

/-- Modelled from the spec (for comparison with `getCurrentRequestCount`): "the
number of timestamps currently inside the window (after purging stale ones)". -/

def RateLimiter.currentCountSpec (rl : RateLimiter) (cfg : RateLimiterConfig)
    (now : Int) : Nat :=
  (rl.cleanupOldRequests cfg now).requestTimestamps.length

/-- One `QueueItem` of the retry queue: the message it serves (identified by its
id), its `attempts` counter, and an identifier for its pending-result handle
(the `resolve`/`reject` pair of the promise returned by `enqueue`). -/

structure QueueItem where
  messageId : String
  attempts : Nat
  handleId : Nat
deriving DecidableEq, Repr

/-- How a pending handle was settled. -/

inductive Settlement
  | resolved
  | rejected
deriving DecidableEq, Repr

/-- One pass of `Queue.process` over a nonempty queue (the source recurses via
`setImmediate` afterwards).  `ok` is whether `item.process(item.message)`
succeeded.  On success the handle is resolved and the trailing
`this.queue.shift()` removes the item.  On a retryable failure
(`attempts < maxAttempts`) the item is re-pushed at the tail by
`this.queue.push(this.queue.shift()!)`, after which the same trailing
`shift()` still runs and removes whatever is then at the head.  On an exhausted
failure the handle is rejected and the trailing `shift()` removes the item.
Returns the queue afterwards and the handles settled during the pass. -/

def Queue.processStep (maxAttempts : Nat) (items : List QueueItem) (ok : Bool) :
    List QueueItem × List (Nat × Settlement) :=
  match items with
  | [] => ([], [])
  | item :: rest =>
      if ok then
        (rest, [(item.handleId, .resolved)])
      else if item.attempts < maxAttempts then
        ((rest ++ [{ item with attempts := item.attempts + 1 }]).tail, [])
      else
        (rest, [(item.handleId, .rejected)])

/-- Error codes of the `EmailError` class (`ERROR_CODES` in the source). -/

inductive EmailErrorCode
  | DUPLICATE_MESSAGE
  | ALL_PROVIDERS_FAILED
  | PROVIDER_ERROR
  | RATE_LIMIT
  | CIRCUIT_BREAKER_OPEN
  | INVALID_CONFIG
deriving DecidableEq, Repr

/-- `EmailService.validateConfig`, on the data the checks inspect: the list of
configured provider names and the optional `retryConfig.maxAttempts`.  The
source guard is `config.retryConfig?.maxAttempts && config.retryConfig.maxAttempts < 1`:
by JS truthiness the first conjunct is false for the value `0`, so only a
present, nonzero `maxAttempts` below 1 is rejected. -/

def EmailService.validateConfig (providers : List String)
    (maxAttempts : Option Int) : Option EmailErrorCode :=
  if providers.isEmpty then
    some .INVALID_CONFIG
  else
    match maxAttempts with
    | some m => if m ≠ 0 ∧ m < 1 then some .INVALID_CONFIG else none
    | none => none

/-- Character class `[a-zA-Z0-9._%+-]` of `VALIDATION.EMAIL_REGEX`. -/

def isLocalChar (c : Char) : Bool :=
  c.isAlpha || c.isDigit || c = '.' || c = '_' || c = '%' || c = '+' || c = '-'

/-- Character class `[a-zA-Z0-9.-]` of `VALIDATION.EMAIL_REGEX`. -/

def isDomainChar (c : Char) : Bool :=
  c.isAlpha || c.isDigit || c = '.' || c = '-'

/-- Split a character list at its first occurrence of `sep`. -/

def splitFirstAt (sep : Char) : List Char → Option (List Char × List Char)
  | [] => none
  | c :: cs =>
      if c = sep then some ([], cs) else
        match splitFirstAt sep cs with
        | some (l, r) => some (c :: l, r)
        | none => none

/-- Match of `[a-zA-Z0-9.-]+\.[a-zA-Z]{2,}$` against the part after the `@`.
Because the `[a-zA-Z]{2,}` tail admits no dot, the separating dot is necessarily
the last dot of the string, so the match is decided there. -/

def domainTailMatch (cs : List Char) : Bool :=
  let r := cs.reverse
  let tld := r.takeWhile (fun c => c ≠ '.')
  match r.dropWhile (fun c => c ≠ '.') with
  | '.' :: d => 2 ≤ tld.length && tld.all Char.isAlpha && !d.isEmpty && d.all isDomainChar
  | _ => false

/-- `VALIDATION.EMAIL_REGEX.test`, i.e. `^[a-zA-Z0-9._%+-]+@[a-zA-Z0-9.-]+\.[a-zA-Z]{2,}$`.
Neither character class admits `@`, so a matching string has exactly one `@`;
the match is decided at the first one. -/

def emailRegexTest (s : String) : Bool :=
  match splitFirstAt '@' s.data with
  | some (localCs, restCs) =>
      !localCs.isEmpty && localCs.all isLocalChar && domainTailMatch restCs
  | none => false

/-- `EmailService.validateEmailInput`: both addresses must match the email
regex, the subject must not exceed `MAX_SUBJECT_LENGTH = 78`, the body must not
exceed `MAX_BODY_LENGTH = 1000000`.  All violations raise `INVALID_CONFIG`. -/

def validateEmailInput (toAddr fromAddr subject body : String) : Option EmailErrorCode :=
  if !emailRegexTest toAddr || !emailRegexTest fromAddr then
    some .INVALID_CONFIG
  else if 78 < subject.length then
    some .INVALID_CONFIG
  else if 1000000 < body.length then
    some .INVALID_CONFIG
  else
    none

/-- The `RetryConfig` of the orchestrator: `maxAttempts` drives loop counts, the
delay parameters are JS numbers, modelled in `ℚ`. -/

structure RetryConfig where
  maxAttempts : Nat
  initialDelay : ℚ
  maxDelay : ℚ
  backoffFactor : ℚ
deriving DecidableEq, Repr

/-- `EmailService.calculateBackoffDelay`:
`min(initialDelay * backoffFactor^(attempt-1), maxDelay) * (0.75 + random * 0.5)`,
with `r` the `Math.random()` draw in `[0, 1)`. -/

def calculateBackoffDelay (retry : RetryConfig) (attempt : Nat) (r : ℚ) : ℚ :=
  min (retry.initialDelay * retry.backoffFactor ^ (attempt - 1)) retry.maxDelay
    * (3 / 4 + r * (1 / 2))

/-- A configured delivery backend for one dispatch run: its `name` and whether
its `send` succeeds when invoked (backends are external collaborators; only
this outcome matters to the orchestrator). -/

structure Provider where
  name : String
  sendOk : Bool
deriving DecidableEq, Repr

/-- The `DeliveryStatus` data the claims inspect, as returned by a successful
dispatch: winning provider, the attempt counter stamped into the status, and the
`lastAttempt` clock value. -/

structure SentInfo where
  provider : String
  attempts : Nat
  lastAttempt : Int
deriving DecidableEq, Repr

/-- Update the per-provider breaker map at one name. -/

def updateBreaker (bs : String → CircuitBreaker) (n : String) (b : CircuitBreaker) :
    String → CircuitBreaker :=
  fun m => if m = n then b else bs m

/-- Result of one pass of `processEmail`'s inner `for (const provider of ...)`
loop: the winning status if any, the breaker map afterwards, the running
`lastProviderName` and whether `lastError` has been assigned, and the trace of
providers whose `send` was actually invoked. -/

structure TryOutcome where
  sent : Option SentInfo
  breakers : String → CircuitBreaker
  lastProviderName : Option String
  lastErrorSet : Bool
  calls : List String

/-- The inner provider loop of `EmailService.processEmail` at attempt number
`attempts`: each provider first has `lastProviderName` set; a provider whose
breaker state reads `OPEN` is skipped by `continue` (its `execute` is never
called); otherwise the send is run through the breaker — the first success
returns immediately, any throw is caught into `lastError` and the loop moves
on.  All clock reads during the pass return `now`. -/

def tryProviders (cbCfg : CircuitBreakerConfig) (now : Int) (attempts : Nat) :
    List Provider → (String → CircuitBreaker) → Option String → Bool → List String →
    TryOutcome
  | [], bs, lastP, lastE, calls =>
      { sent := none, breakers := bs, lastProviderName := lastP,
        lastErrorSet := lastE, calls := calls }
  | p :: ps, bs, _lastP, lastE, calls =>
      if (bs p.name).state = .OPEN then
        tryProviders cbCfg now attempts ps bs (some p.name) lastE calls
      else
        let e := (bs p.name).execute cbCfg now now p.sendOk
        let calls1 := if e.invoked then calls ++ [p.name] else calls
        let bs1 := updateBreaker bs p.name e.breaker
        match e.result with
        | .success =>
            { sent := some { provider := p.name, attempts := attempts, lastAttempt := now },
              breakers := bs1, lastProviderName := some p.name,
              lastErrorSet := lastE, calls := calls1 }
        | _ => tryProviders cbCfg now attempts ps bs1 (some p.name) true calls1

/-- Result of a whole `processEmail` dispatch: the outcome delivered through the
queue handle, the breaker map afterwards, the trace of invoked sends, the trace
of backoff delays computed (one per attempt iteration, used or not), the number
of attempt iterations performed, and the final `lastProviderName`. -/

structure DispatchResult where
  outcome : Except EmailErrorCode SentInfo
  breakers : String → CircuitBreaker
  calls : List String
  delays : List ℚ
  attemptsMade : Nat
  lastProviderName : Option String

/-- The `while (attempts < maxAttempts)` loop of `processEmail`, with
`remaining = maxAttempts - attempts` as fuel.  Each iteration increments
`attempts`, computes the jittered backoff delay (whether or not a suspension
will use it), runs the provider pass, and either returns the winning status or
— when attempts remain — suspends for the delay and iterates.  Exhaustion
throws the `ALL_PROVIDERS_FAILED` error. -/

def dispatchGo (retry : RetryConfig) (cbCfg : CircuitBreakerConfig)
    (providers : List Provider) (now : Int) (rand : Nat → ℚ) :
    Nat → Nat → (String → CircuitBreaker) → Option String → Bool → List String →
    List ℚ → DispatchResult
  | 0, attempts, bs, lastP, _lastE, calls, delays =>
      { outcome := .error .ALL_PROVIDERS_FAILED, breakers := bs, calls := calls,
        delays := delays, attemptsMade := attempts, lastProviderName := lastP }
  | r + 1, attempts, bs, lastP, lastE, calls, delays =>
      let attempts1 := attempts + 1
      let d := calculateBackoffDelay retry attempts1 (rand attempts1)
      let t := tryProviders cbCfg now attempts1 providers bs lastP lastE calls
      match t.sent with
      | some info =>
          { outcome := .ok info, breakers := t.breakers, calls := t.calls,
            delays := delays ++ [d], attemptsMade := attempts1,
            lastProviderName := t.lastProviderName }
      | none =>
          dispatchGo retry cbCfg providers now rand r attempts1 t.breakers
            t.lastProviderName t.lastErrorSet t.calls (delays ++ [d])

/-- The mutable state of `EmailService` the claims inspect: the per-provider
breaker map, the rate limiter, and the `sentMessageIds` idempotency set. -/

structure ServiceState where
  breakers : String → CircuitBreaker
  rateLimiter : RateLimiter
  sentMessageIds : List String

/-- The initial service state: fresh breakers for every provider name, an empty
rate window, an empty idempotency set. -/

def ServiceState.init : ServiceState :=
  { breakers := fun _ => CircuitBreaker.init, rateLimiter := RateLimiter.init,
    sentMessageIds := [] }

/-- `EmailService.processEmail`, the queue's dispatch function for one message:
acquire a rate-limiter slot (translating its failure into the `RATE_LIMIT`
`EmailError` and aborting), then run the attempt loop; on success the message id
is added to `sentMessageIds`.  All clock reads during the run return `now`
(a frozen clock, as under the test harness's fake timers), and `rand` supplies
the `Math.random()` draw of each attempt iteration. -/

def processEmail (retry : RetryConfig) (cbCfg : CircuitBreakerConfig)
    (rlCfg : RateLimiterConfig) (providers : List Provider) (st : ServiceState)
    (msgId : String) (now : Int) (rand : Nat → ℚ) : DispatchResult × ServiceState :=
  let a := st.rateLimiter.acquire rlCfg now
  match a.1 with
  | .rateLimit =>
      ({ outcome := .error .RATE_LIMIT, breakers := st.breakers, calls := [],
         delays := [], attemptsMade := 0, lastProviderName := none },
       { st with rateLimiter := a.2 })
  | .ok =>
      let d := dispatchGo retry cbCfg providers now rand retry.maxAttempts 0
        st.breakers none false [] []
      let sent1 := match d.outcome with
        | .ok _ => st.sentMessageIds.insert msgId
        | .error _ => st.sentMessageIds
      (d, { breakers := d.breakers, rateLimiter := a.2, sentMessageIds := sent1 })

/-- Outcome of one `sendEmail` call as observed by the caller: a thrown
`EmailError`, a delivered status, or — when the queue loses the item without
settling its handle — a promise that never resolves. -/

inductive SendOutcome
  | errored (e : EmailErrorCode)
  | sent (info : SentInfo)
  | pending
deriving DecidableEq, Repr

/-- Result of one `sendEmail` call: its outcome, whether the message reached
`queue.enqueue`, the providers whose `send` ran, and the service state after. -/

structure SendResult where
  outcome : SendOutcome
  enqueued : Bool
  calls : List String
  state : ServiceState

/-- `EmailService.sendEmail` for one submission on an idle (empty) queue.
`mintedId` is the id produced by the `uuidv4()` call (an external generator,
modelled as an input).  The call validates the inputs, then rejects with
`DUPLICATE_MESSAGE` — before `queue.enqueue` — if the minted id is already in
`sentMessageIds`; otherwise the message is enqueued and, the queue being empty,
processed at once by `processEmail`.  On a processing failure `Queue.process`
re-queues the item (`attempts 0 < maxAttempts`) and then unconditionally shifts
it away, so the caller's promise never settles (`pending`); when
`maxAttempts = 0` the item is instead rejected and the error propagates. -/

def sendEmail (retry : RetryConfig) (cbCfg : CircuitBreakerConfig)
    (rlCfg : RateLimiterConfig) (providers : List Provider) (st : ServiceState)
    (mintedId toAddr fromAddr subject body : String) (now : Int) (rand : Nat → ℚ) :
    SendResult :=
  match validateEmailInput toAddr fromAddr subject body with
  | some e => { outcome := .errored e, enqueued := false, calls := [], state := st }
  | none =>
      if mintedId ∈ st.sentMessageIds then
        { outcome := .errored .DUPLICATE_MESSAGE, enqueued := false, calls := [],
          state := st }
      else
        let pr := processEmail retry cbCfg rlCfg providers st mintedId now rand
        match pr.1.outcome with
        | .ok info =>
            { outcome := .sent info, enqueued := true, calls := pr.1.calls,
              state := pr.2 }
        | .error e =>
            { outcome := if 0 < retry.maxAttempts then .pending else .errored e,
              enqueued := true, calls := pr.1.calls, state := pr.2 }

deriving instance DecidableEq for Except

theorem CircuitBreaker.inv_init (cfg : CircuitBreakerConfig) :
    CircuitBreaker.Inv cfg CircuitBreaker.init := by
  intro h
  simp [CircuitBreaker.init] at h

/-- The breaker produced by one `execute` call, as a case split on the entry check. -/
theorem CircuitBreaker.execute_breaker (b : CircuitBreaker) (cfg : CircuitBreakerConfig)
    (now tEnd : Int) (opOk : Bool) :
    (b.execute cfg now tEnd opOk).breaker =
      match b.checkOpen cfg now with
      | none => b
      | some b1 => if opOk then b1.onSuccess else b1.onFailure cfg tEnd := by
  unfold CircuitBreaker.execute
  cases b.checkOpen cfg now with
  | none => rfl
  | some b1 => cases opOk <;> rfl

/-- The entry check either passes the breaker through unchanged or moves an
`OPEN` breaker (counters untouched) to `HALF_OPEN`. -/
theorem CircuitBreaker.checkOpen_cases (b : CircuitBreaker) (cfg : CircuitBreakerConfig)
    (now : Int) (b1 : CircuitBreaker) (h : b.checkOpen cfg now = some b1) :
    b1 = b ∨ (b.state = .OPEN ∧ b1 = { b with state := .HALF_OPEN }) := by
  unfold CircuitBreaker.checkOpen at h
  by_cases hs : b.state = .OPEN
  · rw [if_pos hs] at h
    cases hlf : b.lastFailureTime with
    | none => rw [hlf] at h; cases h
    | some t =>
        rw [hlf] at h
        dsimp only at h
        by_cases hg : t ≠ 0 ∧ cfg.resetTimeout ≤ now - t
        · rw [if_pos hg] at h
          injection h with h
          exact Or.inr ⟨hs, h.symm⟩
        · rw [if_neg hg] at h; cases h
  · rw [if_neg hs] at h
    injection h with h
    exact Or.inl h.symm

theorem CircuitBreaker.inv_step (cfg : CircuitBreakerConfig) (b : CircuitBreaker)
    (e : CBEvent) (hb : CircuitBreaker.Inv cfg b) :
    CircuitBreaker.Inv cfg (b.step cfg e) := by
  cases e with
  | reset =>
      intro h
      simp [CircuitBreaker.step, CircuitBreaker.reset, CircuitBreaker.init] at h
  | exec now tEnd opOk =>
      show CircuitBreaker.Inv cfg (b.execute cfg now tEnd opOk).breaker
      rw [CircuitBreaker.execute_breaker]
      cases hco : b.checkOpen cfg now with
      | none => exact hb
      | some b1 =>
          have hb1 : CircuitBreaker.Inv cfg b1 := by
            rcases CircuitBreaker.checkOpen_cases b cfg now b1 hco with h1 | ⟨hs, h1⟩
            · exact h1 ▸ hb
            · subst h1
              intro _
              exact hb (by simp [hs])
          cases opOk with
          | true =>
              dsimp only
              simp only [if_pos]
              intro h
              unfold CircuitBreaker.onSuccess at h ⊢
              by_cases hh : b1.state = .HALF_OPEN
              · simp [hh] at h
              · simp only [if_neg hh] at h ⊢
                exact hb1 h
          | false =>
              dsimp only
              rw [if_neg Bool.false_ne_true]
              intro h
              unfold CircuitBreaker.onFailure at h ⊢
              dsimp only at h
              refine ⟨?_, by simp⟩
              by_cases hth : cfg.failureThreshold ≤ b1.failureCount + 1
              · exact hth
              · rw [if_neg hth] at h
                exact Nat.le_succ_of_le (hb1 h).1

theorem CircuitBreaker.inv_run (cfg : CircuitBreakerConfig) (evs : List CBEvent) :
    CircuitBreaker.Inv cfg (CircuitBreaker.run cfg evs) := by
  have main : ∀ (l : List CBEvent) (b : CircuitBreaker), CircuitBreaker.Inv cfg b →
      CircuitBreaker.Inv cfg (l.foldl (fun b e => b.step cfg e) b) := by
    intro l
    induction l with
    | nil => intro b hb; simpa using hb
    | cons e l ih =>
        intro b hb
        exact ih _ (CircuitBreaker.inv_step cfg b e hb)
  exact main evs CircuitBreaker.init (CircuitBreaker.inv_init cfg)

theorem CircuitBreaker.inv_of_reachable (cfg : CircuitBreakerConfig)
    (b : CircuitBreaker) (h : CircuitBreaker.Reachable cfg b) :
    CircuitBreaker.Inv cfg b := by
  obtain ⟨evs, rfl⟩ := h
  exact CircuitBreaker.inv_run cfg evs

/-- A failing call on a `CLOSED` breaker just increments the counter (and stamps
the failure time), opening the circuit exactly when the threshold is reached. -/
theorem CircuitBreaker.execute_closed_failure (cfg : CircuitBreakerConfig)
    (b : CircuitBreaker) (hs : b.state = .CLOSED) (now tEnd : Int) :
    (b.execute cfg now tEnd false).breaker =
      { state := if cfg.failureThreshold ≤ b.failureCount + 1 then .OPEN else .CLOSED,
        failureCount := b.failureCount + 1,
        lastFailureTime := some tEnd } := by
  rw [CircuitBreaker.execute_breaker]
  have hco : b.checkOpen cfg now = some b := by
    unfold CircuitBreaker.checkOpen
    rw [if_neg (by simp [hs])]
  rw [hco]
  dsimp only
  rw [if_neg Bool.false_ne_true]
  unfold CircuitBreaker.onFailure
  rw [hs]

theorem CircuitBreaker.runFailures_closed_of_lt (cfg : CircuitBreakerConfig) :
    ∀ (ts : List (Int × Int)) (b : CircuitBreaker), b.state = .CLOSED →
      b.failureCount + ts.length < cfg.failureThreshold →
      (CircuitBreaker.runFailures cfg b ts).state = .CLOSED ∧
      (CircuitBreaker.runFailures cfg b ts).failureCount = b.failureCount + ts.length := by
  intro ts
  induction ts with
  | nil => intro b hs _; exact ⟨hs, by simp [CircuitBreaker.runFailures]⟩
  | cons p ts ih =>
      intro b hs hlt
      have hstep := CircuitBreaker.execute_closed_failure cfg b hs p.1 p.2
      have hth : ¬ cfg.failureThreshold ≤ b.failureCount + 1 := by
        simp only [List.length_cons] at hlt
        omega
      rw [if_neg hth] at hstep
      have hrun : CircuitBreaker.runFailures cfg b (p :: ts) =
          CircuitBreaker.runFailures cfg (b.execute cfg p.1 p.2 false).breaker ts := rfl
      rw [hrun, hstep]
      have hrec := ih ⟨.CLOSED, b.failureCount + 1, some p.2⟩ rfl
        (by simp only [List.length_cons] at hlt ⊢; omega)
      refine ⟨hrec.1, ?_⟩
      rw [hrec.2]
      simp only [List.length_cons]
      omega

theorem CircuitBreaker.runFailures_opens_at_threshold (cfg : CircuitBreakerConfig) :
    ∀ (ts : List (Int × Int)) (b : CircuitBreaker), b.state = .CLOSED →
      b.failureCount + ts.length = cfg.failureThreshold → ts ≠ [] →
      (CircuitBreaker.runFailures cfg b ts).state = .OPEN := by
  intro ts
  induction ts with
  | nil => intro b _ _ hne; exact absurd rfl hne
  | cons p ts ih =>
      intro b hs hlen _
      have hstep := CircuitBreaker.execute_closed_failure cfg b hs p.1 p.2
      have hrun : CircuitBreaker.runFailures cfg b (p :: ts) =
          CircuitBreaker.runFailures cfg (b.execute cfg p.1 p.2 false).breaker ts := rfl
      cases ts with
      | nil =>
          have hth : cfg.failureThreshold ≤ b.failureCount + 1 := by
            simp only [List.length_cons, List.length_nil] at hlen
            omega
          rw [if_pos hth] at hstep
          rw [hrun, hstep]
          rfl
      | cons q ts' =>
          have hth : ¬ cfg.failureThreshold ≤ b.failureCount + 1 := by
            simp only [List.length_cons] at hlen
            omega
          rw [if_neg hth] at hstep
          rw [hrun, hstep]
          exact ih ⟨.CLOSED, b.failureCount + 1, some p.2⟩ rfl
            (by simp only [List.length_cons] at hlen ⊢; omega) (by simp)

/-- The entry check on an `OPEN` breaker whose nonzero `lastFailureTime` is at
least `resetTimeout` in the past: the breaker moves to `HALF_OPEN`. -/
theorem CircuitBreaker.checkOpen_elapsed (b : CircuitBreaker) (cfg : CircuitBreakerConfig)
    (hs : b.state = .OPEN) (t : Int) (hlf : b.lastFailureTime = some t) (ht : t ≠ 0)
    (now : Int) (helapsed : cfg.resetTimeout ≤ now - t) :
    b.checkOpen cfg now = some { b with state := .HALF_OPEN } := by
  unfold CircuitBreaker.checkOpen
  rw [if_pos hs, hlf]
  dsimp only
  rw [if_pos ⟨ht, helapsed⟩]

/-- Claim C5, counterexample: a breaker opened by a failure recorded at clock
value `0` (reachable with one failing call at time `0`, `failureThreshold = 1`)
rejects with the circuit-open error even when called long after `resetTimeout`
(here at time `5000` with `resetTimeout = 1000`), because the JS guard
`if (this.lastFailureTime && …)` treats the timestamp `0` as falsy.  The claim
says that such a call runs the operation as a half-open trial. -/
theorem execute_open_lastFailure_zero_cex :
    (CircuitBreaker.run ⟨1, 1000⟩ [.exec 0 0 false]).state = .OPEN ∧
    (CircuitBreaker.run ⟨1, 1000⟩ [.exec 0 0 false]).lastFailureTime = some 0 ∧
    (1000 : Int) ≤ 5000 - 0 ∧
    (CircuitBreaker.run ⟨1, 1000⟩ [.exec 0 0 false]).execute ⟨1, 1000⟩ 5000 5000 true
      = ⟨.circuitOpen, CircuitBreaker.run ⟨1, 1000⟩ [.exec 0 0 false], false⟩ := by
  decide

/-- Claim C5 (amended): for every reachable `OPEN` breaker whose recorded
`lastFailureTime` is a nonzero timestamp `t`, a call before `resetTimeout` has
elapsed since `t` returns the circuit-open error without invoking the operation
and leaves the breaker unchanged; a call at or after that point invokes the
operation as a half-open trial, and the trial fully determines the next state:
success yields `CLOSED` with `failureCount = 0` and `lastFailureTime = null`,
failure yields `OPEN` with a refreshed `lastFailureTime`.  (The amendment is the
`t ≠ 0` proviso forced by `execute_open_lastFailure_zero_cex`.) -/
theorem execute_open_state_behavior (cfg : CircuitBreakerConfig)
    (hth : 1 ≤ cfg.failureThreshold) (b : CircuitBreaker)
    (hreach : CircuitBreaker.Reachable cfg b) (hs : b.state = .OPEN)
    (t : Int) (hlf : b.lastFailureTime = some t) (ht : t ≠ 0) (now tEnd : Int) :
    (now - t < cfg.resetTimeout →
      ∀ opOk, b.execute cfg now tEnd opOk = ⟨.circuitOpen, b, false⟩) ∧
    (cfg.resetTimeout ≤ now - t →
      (∀ opOk, (b.execute cfg now tEnd opOk).invoked = true) ∧
      (b.execute cfg now tEnd true).breaker = ⟨.CLOSED, 0, none⟩ ∧
      (b.execute cfg now tEnd false).breaker = ⟨.OPEN, b.failureCount + 1, some tEnd⟩) := by
  constructor
  · intro hlt opOk
    have hco : b.checkOpen cfg now = none := by
      unfold CircuitBreaker.checkOpen
      rw [if_pos hs, hlf]
      dsimp only
      rw [if_neg (by intro hg; exact absurd hg.2 (by omega))]
    unfold CircuitBreaker.execute
    rw [hco]
  · intro hel
    have hco := CircuitBreaker.checkOpen_elapsed b cfg hs t hlf ht now hel
    have hcount : cfg.failureThreshold ≤ b.failureCount :=
      (CircuitBreaker.inv_of_reachable cfg b hreach (by simp [hs])).1
    refine ⟨?_, ?_, ?_⟩
    · intro opOk
      unfold CircuitBreaker.execute
      rw [hco]
      cases opOk <;> rfl
    · unfold CircuitBreaker.execute
      rw [hco]
      dsimp only
      rw [if_pos rfl]
      unfold CircuitBreaker.onSuccess
      rw [if_pos rfl]
    · unfold CircuitBreaker.execute
      rw [hco]
      dsimp only
      rw [if_neg Bool.false_ne_true]
      unfold CircuitBreaker.onFailure
      dsimp only
      rw [if_pos (Nat.le_succ_of_le hcount)]

/-- Witness for `execute_open_state_behavior`: concrete reachable open breaker
(threshold 1, reset timeout 1000, one failing call at time 5), trial failure at
time 2000 reopens the circuit with the refreshed failure time. -/
theorem execute_open_state_behavior_witness :
    ((CircuitBreaker.run ⟨1, 1000⟩ [.exec 5 5 false]).execute ⟨1, 1000⟩ 2000 2001 false).breaker
      = ⟨.OPEN, 2, some 2001⟩ := by
  have h := execute_open_state_behavior ⟨1, 1000⟩ (by decide)
    (CircuitBreaker.run ⟨1, 1000⟩ [.exec 5 5 false]) ⟨[.exec 5 5 false], rfl⟩
    (by decide) 5 (by decide) (by decide) 2000 2001
  have h2 := (h.2 (by decide)).2.2
  exact h2.trans (by decide)

/-- Claim C6: from the initial (closed, zeroed) breaker, every sequence of fewer
than `failureThreshold` failing calls (no intervening success) leaves the
circuit `CLOSED`; a sequence of exactly `failureThreshold` failing calls ends
with the circuit `OPEN` (the threshold-th failure performs the transition); and
a successful call on a closed breaker changes nothing at all. -/
theorem circuit_threshold_behavior (cfg : CircuitBreakerConfig) :
    (∀ ts : List (Int × Int), ts.length < cfg.failureThreshold →
      (CircuitBreaker.runFailures cfg CircuitBreaker.init ts).state = .CLOSED) ∧
    (∀ ts : List (Int × Int), 1 ≤ cfg.failureThreshold →
      ts.length = cfg.failureThreshold →
      (CircuitBreaker.runFailures cfg CircuitBreaker.init ts).state = .OPEN) ∧
    (∀ b : CircuitBreaker, b.state = .CLOSED → ∀ now tEnd : Int,
      (b.execute cfg now tEnd true).breaker = b) := by
  refine ⟨?_, ?_, ?_⟩
  · intro ts hlt
    exact (CircuitBreaker.runFailures_closed_of_lt cfg ts CircuitBreaker.init rfl
      (by simpa [CircuitBreaker.init] using hlt)).1
  · intro ts h1 hlen
    refine CircuitBreaker.runFailures_opens_at_threshold cfg ts CircuitBreaker.init rfl
      (by simpa [CircuitBreaker.init] using hlen) ?_
    intro hnil
    rw [hnil] at hlen
    simp only [List.length_nil] at hlen
    omega
  · intro b hs now tEnd
    rw [CircuitBreaker.execute_breaker]
    have hco : b.checkOpen cfg now = some b := by
      unfold CircuitBreaker.checkOpen
      rw [if_neg (by simp [hs])]
    rw [hco]
    dsimp only
    rw [if_pos rfl]
    unfold CircuitBreaker.onSuccess
    rw [if_neg (by simp [hs])]

/-- Witness for `circuit_threshold_behavior` with `failureThreshold = 2`: one
failure leaves the circuit closed, two failures open it, and a success on a
fresh closed breaker is a no-op. -/
theorem circuit_threshold_behavior_witness :
    (CircuitBreaker.runFailures ⟨2, 1000⟩ CircuitBreaker.init [(1, 1)]).state = .CLOSED ∧
    (CircuitBreaker.runFailures ⟨2, 1000⟩ CircuitBreaker.init [(1, 1), (2, 2)]).state = .OPEN ∧
    (CircuitBreaker.init.execute ⟨2, 1000⟩ 3 3 true).breaker = CircuitBreaker.init :=
  ⟨(circuit_threshold_behavior ⟨2, 1000⟩).1 [(1, 1)] (by decide),
   (circuit_threshold_behavior ⟨2, 1000⟩).2.1 [(1, 1), (2, 2)] (by decide) (by decide),
   (circuit_threshold_behavior ⟨2, 1000⟩).2.2 CircuitBreaker.init rfl 3 3⟩

/-- Claim C10: in every reachable breaker state (with `failureThreshold ≥ 1`),
being `OPEN` or `HALF_OPEN` — the latter arising only transiently, through the
entry check of `execute` — implies `failureCount ≥ failureThreshold` with a
recorded `lastFailureTime`; consequently a failing half-open trial always moves
the breaker back to `OPEN` (the `failureCount >= failureThreshold` re-check in
the catch branch cannot keep it out of `OPEN`). -/
theorem circuit_breaker_open_invariant (cfg : CircuitBreakerConfig)
    (hth : 1 ≤ cfg.failureThreshold) (b : CircuitBreaker)
    (hreach : CircuitBreaker.Reachable cfg b) :
    (b.state = .OPEN ∨ b.state = .HALF_OPEN →
      cfg.failureThreshold ≤ b.failureCount ∧ b.lastFailureTime.isSome = true) ∧
    (∀ (now : Int) (b1 : CircuitBreaker), b.checkOpen cfg now = some b1 →
      b1.state = .HALF_OPEN →
      cfg.failureThreshold ≤ b1.failureCount ∧ b1.lastFailureTime.isSome = true) ∧
    (∀ (now tEnd : Int) (b1 : CircuitBreaker), b.checkOpen cfg now = some b1 →
      b1.state = .HALF_OPEN → (b1.onFailure cfg tEnd).state = .OPEN) := by
  have hinv := CircuitBreaker.inv_of_reachable cfg b hreach
  have part2 : ∀ (now : Int) (b1 : CircuitBreaker), b.checkOpen cfg now = some b1 →
      b1.state = .HALF_OPEN →
      cfg.failureThreshold ≤ b1.failureCount ∧ b1.lastFailureTime.isSome = true := by
    intro now b1 hco hh
    rcases CircuitBreaker.checkOpen_cases b cfg now b1 hco with h1 | ⟨hs, h1⟩
    · subst h1
      exact hinv (by simp [hh])
    · subst h1
      exact hinv (by simp [hs])
  refine ⟨?_, part2, ?_⟩
  · intro h
    refine hinv ?_
    rcases h with h | h <;> simp [h]
  · intro now tEnd b1 hco hh
    unfold CircuitBreaker.onFailure
    dsimp only
    rw [if_pos (Nat.le_succ_of_le (part2 now b1 hco hh).1)]

/-- Witness for `circuit_breaker_open_invariant`: concrete reachable open
breaker (threshold 1, one failing call at time 5); the entry check at time 2000
yields a half-open breaker whose trial failure at time 7 reopens the circuit. -/
theorem circuit_breaker_open_invariant_witness :
    ((⟨.HALF_OPEN, 1, some 5⟩ : CircuitBreaker).onFailure ⟨1, 1000⟩ 7).state = .OPEN := by
  have h := circuit_breaker_open_invariant ⟨1, 1000⟩ (by decide)
    (CircuitBreaker.run ⟨1, 1000⟩ [.exec 5 5 false]) ⟨[.exec 5 5 false], rfl⟩
  exact h.2.2 2000 7 ⟨.HALF_OPEN, 1, some 5⟩ (by decide) rfl

/-- Every timestamp surviving the purge is strictly inside the trailing window. -/
theorem RateLimiter.cleanup_mem_window (rl : RateLimiter) (cfg : RateLimiterConfig)
    (now : Int) (ts : Int)
    (h : ts ∈ (rl.cleanupOldRequests cfg now).requestTimestamps) :
    now - cfg.timeWindow < ts := by
  have h2 : ts ∈ rl.requestTimestamps.filter (fun x => decide (now - cfg.timeWindow < x)) := h
  exact of_decide_eq_true (List.mem_filter.mp h2).2

/-- `acquire` when the purged list is still below the limit. -/
theorem RateLimiter.acquire_eq_of_below (rl : RateLimiter) (cfg : RateLimiterConfig)
    (now : Int)
    (h : (rl.cleanupOldRequests cfg now).requestTimestamps.length < cfg.maxRequests) :
    rl.acquire cfg now =
      (.ok, ⟨(rl.cleanupOldRequests cfg now).requestTimestamps ++ [now]⟩) := by
  unfold RateLimiter.acquire
  rw [if_neg (not_le.mpr h)]

/-- `acquire` when the purged list is at (or beyond) the limit, is nonempty, and
its oldest entry still has positive wait time: the rate-limit error. -/
theorem RateLimiter.acquire_eq_of_full (rl : RateLimiter) (cfg : RateLimiterConfig)
    (now : Int) (oldest : Int) (rest : List Int)
    (hfull : cfg.maxRequests ≤ (rl.cleanupOldRequests cfg now).requestTimestamps.length)
    (hl : (rl.cleanupOldRequests cfg now).requestTimestamps = oldest :: rest)
    (hwait : 0 < oldest + cfg.timeWindow - now) :
    rl.acquire cfg now = (.rateLimit, rl.cleanupOldRequests cfg now) := by
  unfold RateLimiter.acquire
  rw [if_pos hfull, hl]
  dsimp only
  rw [if_pos hwait]

/-- `acquire` when the purged list is at the limit but empty (only possible for
`maxRequests = 0`): the `NaN > 0` comparison is false and the call succeeds. -/
theorem RateLimiter.acquire_eq_of_full_nil (rl : RateLimiter) (cfg : RateLimiterConfig)
    (now : Int)
    (hfull : cfg.maxRequests ≤ (rl.cleanupOldRequests cfg now).requestTimestamps.length)
    (hl : (rl.cleanupOldRequests cfg now).requestTimestamps = []) :
    rl.acquire cfg now =
      (.ok, ⟨(rl.cleanupOldRequests cfg now).requestTimestamps ++ [now]⟩) := by
  unfold RateLimiter.acquire
  rw [if_pos hfull, hl]

/-- The state after any `acquire` is the purged list, possibly with the current
timestamp appended. -/
theorem RateLimiter.acquire_state_cases (rl : RateLimiter) (cfg : RateLimiterConfig)
    (now : Int) :
    (rl.acquire cfg now).2.requestTimestamps =
        (rl.cleanupOldRequests cfg now).requestTimestamps ∨
    (rl.acquire cfg now).2.requestTimestamps =
        (rl.cleanupOldRequests cfg now).requestTimestamps ++ [now] := by
  by_cases hfull : cfg.maxRequests ≤ (rl.cleanupOldRequests cfg now).requestTimestamps.length
  · cases hl : (rl.cleanupOldRequests cfg now).requestTimestamps with
    | nil =>
        rw [RateLimiter.acquire_eq_of_full_nil rl cfg now hfull hl]
        right
        dsimp only
        rw [hl]
    | cons oldest rest =>
        by_cases hwait : 0 < oldest + cfg.timeWindow - now
        · rw [RateLimiter.acquire_eq_of_full rl cfg now oldest rest hfull hl hwait]
          left
          exact hl
        · right
          unfold RateLimiter.acquire
          rw [if_pos hfull, hl]
          dsimp only
          rw [if_neg hwait]
  · rw [RateLimiter.acquire_eq_of_below rl cfg now (not_le.mp hfull)]
    right; rfl

/-- Claim C7, counterexample: with `maxRequests = 0` the number of admitted
requests inside the window (zero) already equals `maxRequests`, yet `acquire`
succeeds and records a timestamp — in JS the wait-time comparison against the
`undefined` oldest entry is `NaN > 0`, which is false.  The claim says every
such call fails with the rate-limit error. -/
theorem acquire_zero_max_requests_cex :
    RateLimiter.init.currentCountSpec ⟨0, 1000⟩ 0 = (⟨0, 1000⟩ : RateLimiterConfig).maxRequests ∧
    (RateLimiter.init.acquire ⟨0, 1000⟩ 0).1 = .ok ∧
    (RateLimiter.init.acquire ⟨0, 1000⟩ 0).2 = ⟨[0]⟩ := by
  decide

/-- Claim C7 (amended with the `maxRequests ≥ 1` proviso forced by
`acquire_zero_max_requests_cex`): for a limiter holding at most `maxRequests`
timestamps, `acquire` fails with the rate-limit error exactly when the number of
recorded timestamps inside the trailing window already equals `maxRequests`; on
failure it records nothing (the state is only purged), otherwise it appends the
current timestamp and succeeds, and in either case the bound
`length ≤ maxRequests` is preserved (hence the (N+1)-th acquire inside the
window fails, and an acquire after the window has passed the oldest entry
succeeds). -/
theorem acquire_rate_limit_behavior (cfg : RateLimiterConfig)
    (hN : 1 ≤ cfg.maxRequests) (rl : RateLimiter)
    (hinv : rl.requestTimestamps.length ≤ cfg.maxRequests) (now : Int) :
    ((rl.acquire cfg now).1 = .rateLimit ↔
      (rl.cleanupOldRequests cfg now).requestTimestamps.length = cfg.maxRequests) ∧
    ((rl.acquire cfg now).1 = .rateLimit →
      (rl.acquire cfg now).2 = rl.cleanupOldRequests cfg now) ∧
    ((rl.acquire cfg now).1 = .ok →
      (rl.acquire cfg now).2.requestTimestamps =
        (rl.cleanupOldRequests cfg now).requestTimestamps ++ [now]) ∧
    (rl.acquire cfg now).2.requestTimestamps.length ≤ cfg.maxRequests := by
  have hlen : (rl.cleanupOldRequests cfg now).requestTimestamps.length ≤
      rl.requestTimestamps.length :=
    List.length_filter_le _ _
  by_cases hfull : cfg.maxRequests ≤ (rl.cleanupOldRequests cfg now).requestTimestamps.length
  · have heq : (rl.cleanupOldRequests cfg now).requestTimestamps.length = cfg.maxRequests :=
      le_antisymm (le_trans hlen hinv) hfull
    have hne : (rl.cleanupOldRequests cfg now).requestTimestamps ≠ [] := by
      intro h0
      rw [h0] at heq
      simp only [List.length_nil] at heq
      omega
    obtain ⟨oldest, rest, hl⟩ := List.exists_cons_of_ne_nil hne
    have hwait : 0 < oldest + cfg.timeWindow - now := by
      have := RateLimiter.cleanup_mem_window rl cfg now oldest
        (by rw [hl]; exact List.mem_cons_self _ _)
      omega
    have hacq := RateLimiter.acquire_eq_of_full rl cfg now oldest rest hfull hl hwait
    rw [hacq]
    exact ⟨by simp [heq], fun _ => rfl, by simp, le_of_eq heq⟩
  · have hacq := RateLimiter.acquire_eq_of_below rl cfg now (not_le.mp hfull)
    rw [hacq]
    refine ⟨?_, by simp, fun _ => rfl, ?_⟩
    · simp only [List.length_append]
      constructor
      · intro h; cases h
      · intro h; omega
    · simp only [List.length_append, List.length_cons, List.length_nil]
      omega

/-- Witness for `acquire_rate_limit_behavior`: `maxRequests = 2`, window 1000,
both recorded timestamps inside the window at time 10 — this acquire fails with
the rate-limit error and leaves the state purged only. -/
theorem acquire_rate_limit_behavior_witness :
    ((⟨[0, 5]⟩ : RateLimiter).acquire ⟨2, 1000⟩ 10).1 = .rateLimit ∧
    ((⟨[0, 5]⟩ : RateLimiter).acquire ⟨2, 1000⟩ 10).2 = ⟨[0, 5]⟩ := by
  have h := acquire_rate_limit_behavior ⟨2, 1000⟩ (by decide) ⟨[0, 5]⟩ (by decide) 10
  have h1 : ((⟨[0, 5]⟩ : RateLimiter).acquire ⟨2, 1000⟩ 10).1 = .rateLimit :=
    h.1.mpr (by decide)
  exact ⟨h1, (h.2.1 h1).trans (by decide)⟩

/-- Claim C9, counterexample: after one acquire at time 0 (window 1000), reading
the counter once the window has long passed (time 2000) still returns 1, whereas
the spec-modelled count of timestamps inside the window is 0 —
`getCurrentRequestCount` performs no purge. -/
theorem getCurrentRequestCount_stale_cex :
    (RateLimiter.init.acquire ⟨10, 1000⟩ 0).2.getCurrentRequestCount = 1 ∧
    (RateLimiter.init.acquire ⟨10, 1000⟩ 0).2.currentCountSpec ⟨10, 1000⟩ 2000 = 0 := by
  decide

/-- Claim C9 (amended): `getCurrentRequestCount` returns the raw stored count
without purging; purging happens only inside `acquire`, so the value coincides
with the in-window count at the clock value of the immediately preceding
`acquire` call (for a positive window), not "for every current time" as claimed. -/
theorem getCurrentRequestCount_behavior (cfg : RateLimiterConfig)
    (hW : 0 < cfg.timeWindow) (rl : RateLimiter) (now : Int) :
    rl.getCurrentRequestCount = rl.requestTimestamps.length ∧
    (rl.acquire cfg now).2.getCurrentRequestCount =
      (rl.acquire cfg now).2.currentCountSpec cfg now := by
  refine ⟨rfl, ?_⟩
  have hclean : ∀ l : List Int, (∀ ts ∈ l, now - cfg.timeWindow < ts) →
      l.filter (fun ts => now - cfg.timeWindow < ts) = l := by
    intro l hl
    refine List.filter_eq_self.mpr ?_
    intro a ha
    exact decide_eq_true (hl a ha)
  have hcount : ∀ l : List Int, (rl.acquire cfg now).2.requestTimestamps = l →
      (∀ ts ∈ l, now - cfg.timeWindow < ts) →
      (rl.acquire cfg now).2.getCurrentRequestCount =
        (rl.acquire cfg now).2.currentCountSpec cfg now := by
    intro l hl hmem
    unfold RateLimiter.getCurrentRequestCount RateLimiter.currentCountSpec
      RateLimiter.cleanupOldRequests
    rw [hl]
    dsimp only
    rw [hclean l hmem]
  rcases RateLimiter.acquire_state_cases rl cfg now with hc | hc
  · exact hcount _ hc (fun ts h => RateLimiter.cleanup_mem_window rl cfg now ts h)
  · refine hcount _ hc ?_
    intro ts hts
    rcases List.mem_append.mp hts with h | h
    · exact RateLimiter.cleanup_mem_window rl cfg now ts h
    · simp only [List.mem_singleton] at h
      omega

/-- Witness for `getCurrentRequestCount_behavior`: right after an acquire at
time 600, the raw counter and the in-window count agree. -/
theorem getCurrentRequestCount_behavior_witness :
    ((⟨[-500, 3]⟩ : RateLimiter).acquire ⟨10, 1000⟩ 600).2.getCurrentRequestCount =
      ((⟨[-500, 3]⟩ : RateLimiter).acquire ⟨10, 1000⟩ 600).2.currentCountSpec ⟨10, 1000⟩ 600 :=
  (getCurrentRequestCount_behavior ⟨10, 1000⟩ (by decide) ⟨[-500, 3]⟩ 600).2

/-- Claim C2: `Queue.process` on a retryable failure re-queues the item at the
tail but then unconditionally shifts the new head (the source comment reads
"Remove the processed item", yet the processed item has already been shifted
away in this branch).  With `[A]` alone, the re-queued `A` itself is discarded:
the queue ends empty, nothing is settled, and `A` is never processed again —
its handle stays pending forever.  With `[A, B]`, the next pending item `B` is
silently dropped instead.  The success and attempts-exhausted branches behave
as the claim describes. -/
theorem queue_requeue_drops_item :
    Queue.processStep 3 [⟨"A", 0, 1⟩] false = ([], []) ∧
    Queue.processStep 3 [⟨"A", 0, 1⟩, ⟨"B", 0, 2⟩] false = ([⟨"A", 1, 1⟩], []) ∧
    Queue.processStep 3 [⟨"A", 0, 1⟩] true = ([], [(1, .resolved)]) ∧
    Queue.processStep 0 [⟨"A", 0, 1⟩] false = ([], [(1, .rejected)]) := by
  decide

/-- Claim C4: construction rejects an empty provider list and a negative
`maxAttempts`, but `maxAttempts = 0` slips through the truthiness guard and
construction succeeds, contradicting the claim (and the code's own error
message "Max attempts must be at least 1"). -/
theorem validateConfig_zero_max_attempts_accepted :
    EmailService.validateConfig [] none = some .INVALID_CONFIG ∧
    EmailService.validateConfig ["MockProvider1"] (some (-3)) = some .INVALID_CONFIG ∧
    EmailService.validateConfig ["MockProvider1"] (some 0) = none ∧
    EmailService.validateConfig ["MockProvider1"] (some 1) = none := by
  decide

/-- Claim C3: one backend (`MockProvider1`, always failing),
`failureThreshold = 2`, `maxAttempts = 1` (one breaker call per submission).
The first two failed submissions open the breaker.  The third submission
(1 ms later, well within `resetTimeout = 1000`) never invokes the backend —
`processEmail` skips providers whose breaker reads `OPEN` — but it does not
fail with a circuit-open error: it runs its full attempt loop with the provider
skipped and throws `ALL_PROVIDERS_FAILED`.  The repo's own test
(`EmailService.test.ts`, "should open circuit after threshold failures")
expects this rejection to match `/CIRCUIT_OPEN/`. -/
theorem circuit_open_submission_yields_all_providers_failed :
    ((processEmail ⟨1, 1000, 10000, 2⟩ ⟨2, 1000⟩ ⟨10, 1000⟩ [⟨"MockProvider1", false⟩]
        (processEmail ⟨1, 1000, 10000, 2⟩ ⟨2, 1000⟩ ⟨10, 1000⟩ [⟨"MockProvider1", false⟩]
          ServiceState.init "m1" 1 (fun _ => 0)).2
        "m2" 2 (fun _ => 0)).2.breakers "MockProvider1").state = .OPEN ∧
    (processEmail ⟨1, 1000, 10000, 2⟩ ⟨2, 1000⟩ ⟨10, 1000⟩ [⟨"MockProvider1", false⟩]
        (processEmail ⟨1, 1000, 10000, 2⟩ ⟨2, 1000⟩ ⟨10, 1000⟩ [⟨"MockProvider1", false⟩]
          (processEmail ⟨1, 1000, 10000, 2⟩ ⟨2, 1000⟩ ⟨10, 1000⟩ [⟨"MockProvider1", false⟩]
            ServiceState.init "m1" 1 (fun _ => 0)).2
          "m2" 2 (fun _ => 0)).2
        "m3" 3 (fun _ => 0)).1.outcome = .error .ALL_PROVIDERS_FAILED ∧
    (processEmail ⟨1, 1000, 10000, 2⟩ ⟨2, 1000⟩ ⟨10, 1000⟩ [⟨"MockProvider1", false⟩]
        (processEmail ⟨1, 1000, 10000, 2⟩ ⟨2, 1000⟩ ⟨10, 1000⟩ [⟨"MockProvider1", false⟩]
          (processEmail ⟨1, 1000, 10000, 2⟩ ⟨2, 1000⟩ ⟨10, 1000⟩ [⟨"MockProvider1", false⟩]
            ServiceState.init "m1" 1 (fun _ => 0)).2
          "m2" 2 (fun _ => 0)).2
        "m3" 3 (fun _ => 0)).1.calls = [] := by
  decide

/-- Each attempt iteration of the dispatch loop appends exactly one computed
delay, whether or not the iteration is the last (the source computes the
jittered delay at the top of the `while` body, before knowing whether it will
suspend). -/
theorem dispatchGo_delays_length (retry : RetryConfig) (cbCfg : CircuitBreakerConfig)
    (providers : List Provider) (now : Int) (rand : Nat → ℚ) :
    ∀ (remaining attempts : Nat) (bs : String → CircuitBreaker) (lastP : Option String)
      (lastE : Bool) (calls : List String) (delays : List ℚ),
      (dispatchGo retry cbCfg providers now rand remaining attempts bs lastP lastE
          calls delays).delays.length + attempts
        = delays.length + (dispatchGo retry cbCfg providers now rand remaining attempts
            bs lastP lastE calls delays).attemptsMade := by
  intro remaining
  induction remaining with
  | zero =>
      intro attempts bs lastP lastE calls delays
      simp [dispatchGo]
  | succ rr ih =>
      intro attempts bs lastP lastE calls delays
      simp only [dispatchGo]
      cases htry : (tryProviders cbCfg now (attempts + 1) providers bs lastP lastE
          calls).sent with
      | some info =>
          simp only [List.length_append, List.length_cons, List.length_nil]
          omega
      | none =>
          dsimp only
          have h2 := ih (attempts + 1)
            (tryProviders cbCfg now (attempts + 1) providers bs lastP lastE calls).breakers
            (tryProviders cbCfg now (attempts + 1) providers bs lastP lastE calls).lastProviderName
            (tryProviders cbCfg now (attempts + 1) providers bs lastP lastE calls).lastErrorSet
            (tryProviders cbCfg now (attempts + 1) providers bs lastP lastE calls).calls
            (delays ++ [calculateBackoffDelay retry (attempts + 1) (rand (attempts + 1))])
          simp only [List.length_append, List.length_cons, List.length_nil] at h2
          omega

/-- Claim C8: (i) for every attempt `k ≥ 1` and `Math.random()` draw
`r ∈ [0, 1)`, with nonnegative delay configuration, the jittered backoff delay
lies within `[3/4, 5/4] × min(initialDelay · backoffFactor^(k-1), maxDelay)`;
(ii) the dispatch loop computes exactly one jittered delay per attempt
iteration performed, regardless of whether the delay is used for a suspension
(delay arithmetic is modelled in exact rational arithmetic). -/
theorem backoff_delay_bounds_and_trace :
    (∀ (retry : RetryConfig) (k : Nat) (r : ℚ),
      1 ≤ k → 0 ≤ retry.initialDelay → 0 ≤ retry.maxDelay →
      0 ≤ retry.backoffFactor → 0 ≤ r → r < 1 →
      (3 / 4) * min (retry.initialDelay * retry.backoffFactor ^ (k - 1)) retry.maxDelay
          ≤ calculateBackoffDelay retry k r ∧
        calculateBackoffDelay retry k r
          ≤ (5 / 4) * min (retry.initialDelay * retry.backoffFactor ^ (k - 1)) retry.maxDelay) ∧
    (∀ (retry : RetryConfig) (cbCfg : CircuitBreakerConfig) (providers : List Provider)
      (now : Int) (rand : Nat → ℚ) (bs : String → CircuitBreaker),
      (dispatchGo retry cbCfg providers now rand retry.maxAttempts 0 bs none false
          [] []).delays.length
        = (dispatchGo retry cbCfg providers now rand retry.maxAttempts 0 bs none false
            [] []).attemptsMade) := by
  constructor
  · intro retry k r _hk hA hM hF hr0 hr1
    unfold calculateBackoffDelay
    have hbase : 0 ≤ min (retry.initialDelay * retry.backoffFactor ^ (k - 1)) retry.maxDelay :=
      le_min (mul_nonneg hA (pow_nonneg hF _)) hM
    constructor
    · nlinarith [mul_nonneg hbase hr0]
    · nlinarith [mul_nonneg hbase (by linarith : (0 : ℚ) ≤ 1 - r)]
  · intro retry cbCfg providers now rand bs
    have h := dispatchGo_delays_length retry cbCfg providers now rand
      retry.maxAttempts 0 bs none false [] []
    simpa using h

/-- Witness for `backoff_delay_bounds_and_trace`: attempt 3 with the default
retry configuration and `r = 1/2` (delay `4000`), and a concrete dispatch run
whose delay trace length equals its attempt count. -/
theorem backoff_delay_bounds_and_trace_witness :
    ((3 / 4) * min ((1000 : ℚ) * 2 ^ (3 - 1)) 10000
        ≤ calculateBackoffDelay ⟨3, 1000, 10000, 2⟩ 3 (1 / 2) ∧
      calculateBackoffDelay ⟨3, 1000, 10000, 2⟩ 3 (1 / 2)
        ≤ (5 / 4) * min ((1000 : ℚ) * 2 ^ (3 - 1)) 10000) ∧
    (dispatchGo ⟨3, 1000, 10000, 2⟩ ⟨5, 30000⟩ [⟨"MockProvider1", false⟩] 1
        (fun _ => 0) 3 0 (fun _ => CircuitBreaker.init) none false [] []).delays.length
      = (dispatchGo ⟨3, 1000, 10000, 2⟩ ⟨5, 30000⟩ [⟨"MockProvider1", false⟩] 1
          (fun _ => 0) 3 0 (fun _ => CircuitBreaker.init) none false [] []).attemptsMade :=
  ⟨backoff_delay_bounds_and_trace.1 ⟨3, 1000, 10000, 2⟩ 3 (1 / 2) (by norm_num)
      (by norm_num) (by norm_num) (by norm_num) (by norm_num) (by norm_num),
   backoff_delay_bounds_and_trace.2 ⟨3, 1000, 10000, 2⟩ ⟨5, 30000⟩
      [⟨"MockProvider1", false⟩] 1 (fun _ => 0) (fun _ => CircuitBreaker.init)⟩

/-- A successful dispatch records the message id in the idempotency set. -/
theorem processEmail_mem_sent (retry : RetryConfig) (cbCfg : CircuitBreakerConfig)
    (rlCfg : RateLimiterConfig) (providers : List Provider) (st : ServiceState)
    (msgId : String) (now : Int) (rand : Nat → ℚ) (info : SentInfo)
    (h : (processEmail retry cbCfg rlCfg providers st msgId now rand).1.outcome
      = .ok info) :
    msgId ∈ (processEmail retry cbCfg rlCfg providers st msgId now rand).2.sentMessageIds := by
  unfold processEmail at h ⊢
  dsimp only at h ⊢
  cases ha : (st.rateLimiter.acquire rlCfg now).1 with
  | rateLimit => rw [ha] at h; simp at h
  | ok =>
      rw [ha] at h
      dsimp only at h
      rw [h]
      exact List.mem_insert_self _ _

/-- A `sendEmail` call that returns a delivered status passed input validation
and has recorded the minted id in the resulting idempotency set. -/
theorem sendEmail_sent_facts (retry : RetryConfig) (cbCfg : CircuitBreakerConfig)
    (rlCfg : RateLimiterConfig) (providers : List Provider) (st : ServiceState)
    (mintedId toAddr fromAddr subject body : String) (now : Int) (rand : Nat → ℚ)
    (info : SentInfo)
    (h1 : (sendEmail retry cbCfg rlCfg providers st mintedId toAddr fromAddr subject
      body now rand).outcome = .sent info) :
    validateEmailInput toAddr fromAddr subject body = none ∧
    mintedId ∈ (sendEmail retry cbCfg rlCfg providers st mintedId toAddr fromAddr
      subject body now rand).state.sentMessageIds := by
  cases hv : validateEmailInput toAddr fromAddr subject body with
  | some e => simp [sendEmail, hv] at h1
  | none =>
      refine ⟨rfl, ?_⟩
      simp only [sendEmail, hv] at h1 ⊢
      by_cases hmem : mintedId ∈ st.sentMessageIds
      · rw [if_pos hmem] at h1
        simp at h1
      · rw [if_neg hmem] at h1 ⊢
        cases hout : (processEmail retry cbCfg rlCfg providers st mintedId now rand).1.outcome with
        | error e =>
            rw [hout] at h1
            dsimp only at h1
            by_cases hma : 0 < retry.maxAttempts
            · rw [if_pos hma] at h1; simp at h1
            · rw [if_neg hma] at h1; simp at h1
        | ok info2 =>
            dsimp only
            exact processEmail_mem_sent retry cbCfg rlCfg providers st mintedId now rand
              info2 hout

/-- Claim C1: if a first submission with minted id `mintedId` completes with a
delivered status, a second submission minting the same id (same validated
inputs, any later clock and randomness) fails with `DUPLICATE_MESSAGE` before
`queue.enqueue` is reached, and no backend `send` is invoked for it. -/
theorem sendEmail_duplicate_second_submission (retry : RetryConfig)
    (cbCfg : CircuitBreakerConfig) (rlCfg : RateLimiterConfig)
    (providers : List Provider) (st : ServiceState)
    (mintedId toAddr fromAddr subject body : String) (now1 now2 : Int)
    (rand1 rand2 : Nat → ℚ) (info : SentInfo)
    (h1 : (sendEmail retry cbCfg rlCfg providers st mintedId toAddr fromAddr subject
      body now1 rand1).outcome = .sent info) :
    (sendEmail retry cbCfg rlCfg providers
        (sendEmail retry cbCfg rlCfg providers st mintedId toAddr fromAddr subject body
          now1 rand1).state
        mintedId toAddr fromAddr subject body now2 rand2).outcome
      = .errored .DUPLICATE_MESSAGE ∧
    (sendEmail retry cbCfg rlCfg providers
        (sendEmail retry cbCfg rlCfg providers st mintedId toAddr fromAddr subject body
          now1 rand1).state
        mintedId toAddr fromAddr subject body now2 rand2).enqueued = false ∧
    (sendEmail retry cbCfg rlCfg providers
        (sendEmail retry cbCfg rlCfg providers st mintedId toAddr fromAddr subject body
          now1 rand1).state
        mintedId toAddr fromAddr subject body now2 rand2).calls = [] := by
  obtain ⟨hv, hmem⟩ := sendEmail_sent_facts retry cbCfg rlCfg providers st mintedId
    toAddr fromAddr subject body now1 rand1 info h1
  have hsecond : ∀ st2 : ServiceState, mintedId ∈ st2.sentMessageIds →
      sendEmail retry cbCfg rlCfg providers st2 mintedId toAddr fromAddr subject body
          now2 rand2
        = { outcome := .errored .DUPLICATE_MESSAGE, enqueued := false, calls := [],
            state := st2 } := by
    intro st2 hm
    simp only [sendEmail, hv]
    rw [if_pos hm]
  rw [hsecond _ hmem]
  exact ⟨rfl, rfl, rfl⟩

/-- Witness for `sendEmail_duplicate_second_submission`: the test scenario —
one healthy provider, valid addresses, minted id "test-123"; the first call
delivers, the second call with the same minted id is rejected as a duplicate
with nothing enqueued and no send invoked. -/
theorem sendEmail_duplicate_second_submission_witness :
    (sendEmail ⟨3, 1000, 10000, 2⟩ ⟨5, 30000⟩ ⟨10, 1000⟩ [⟨"MockProvider1", true⟩]
        (sendEmail ⟨3, 1000, 10000, 2⟩ ⟨5, 30000⟩ ⟨10, 1000⟩ [⟨"MockProvider1", true⟩]
          ServiceState.init "test-123" "test@example.com" "sender@example.com"
          "Test Subject" "Test Body" 1000 (fun _ => 0)).state
        "test-123" "test@example.com" "sender@example.com" "Test Subject" "Test Body"
        1200 (fun _ => 0)).outcome = .errored .DUPLICATE_MESSAGE ∧
    (sendEmail ⟨3, 1000, 10000, 2⟩ ⟨5, 30000⟩ ⟨10, 1000⟩ [⟨"MockProvider1", true⟩]
        (sendEmail ⟨3, 1000, 10000, 2⟩ ⟨5, 30000⟩ ⟨10, 1000⟩ [⟨"MockProvider1", true⟩]
          ServiceState.init "test-123" "test@example.com" "sender@example.com"
          "Test Subject" "Test Body" 1000 (fun _ => 0)).state
        "test-123" "test@example.com" "sender@example.com" "Test Subject" "Test Body"
        1200 (fun _ => 0)).enqueued = false ∧
    (sendEmail ⟨3, 1000, 10000, 2⟩ ⟨5, 30000⟩ ⟨10, 1000⟩ [⟨"MockProvider1", true⟩]
        (sendEmail ⟨3, 1000, 10000, 2⟩ ⟨5, 30000⟩ ⟨10, 1000⟩ [⟨"MockProvider1", true⟩]
          ServiceState.init "test-123" "test@example.com" "sender@example.com"
          "Test Subject" "Test Body" 1000 (fun _ => 0)).state
        "test-123" "test@example.com" "sender@example.com" "Test Subject" "Test Body"
        1200 (fun _ => 0)).calls = [] :=
  sendEmail_duplicate_second_submission ⟨3, 1000, 10000, 2⟩ ⟨5, 30000⟩ ⟨10, 1000⟩
    [⟨"MockProvider1", true⟩] ServiceState.init "test-123" "test@example.com"
    "sender@example.com" "Test Subject" "Test Body" 1000 1200 (fun _ => 0) (fun _ => 0)
    ⟨"MockProvider1", 1, 1000⟩ (by decide)
